import Mathlib

/-!
Verification development for the `woody` logging library (`src/lib.rs`).

The embedding translates the library's data model and operations into Lean:

* `LogLevel` embeds the Rust enum `LogLevel` (lib.rs lines 39-47) together
  with its `Display` implementation (lines 49-60).
* `LogInfo` embeds the record struct `LogInfo` (lines 191-198).
* `Logger` embeds the struct `Logger` (lines 63-68).  The Rust field
  `file : Arc<Mutex<File>>` is a shared handle to an open file; in the
  embedding its *identity* is the natural number `fileId`, and the bytes
  behind each identity live in the global state's `files` map.  Cloning a
  `Logger` clones the `Arc`, i.e. copies the `fileId`, so two handles share
  a sink exactly when their `fileId`s agree.
* `GState` embeds the process-global state: the `lazy_static` slot
  `INSTANCE : Arc<Mutex<Option<Logger>>>` (line 16), the `lazy_static`
  `FILENAME : Arc<Mutex<String>>` initialised to `"debug.log"` (line 17), a
  fresh-identity counter for newly opened file handles, and the contents of
  every file handle.
* `Env` is the ambient process environment (`std::env`), passed as a
  parameter wherever the source *could* read it; the translation records
  faithfully which operations actually consult it.
* Ambient wall-clock time and the current thread's name are likewise passed
  as parameters (`ts`, `curThread`) to the operations that read them.

A separate small-step machine `MStep` at the end embeds the sink write
discipline (`self.file.lock().unwrap()` followed by `write_all`,
lib.rs lines 171-172): a thread may append bytes to the file only while it
holds the mutex, and releases the mutex only after its whole line is out.
-/

namespace Woody

/-- Embeds `enum LogLevel` (lib.rs 39-47).  The Rust enum derives
`Copy, Clone, Debug, PartialEq, Eq` and nothing else; in particular no
`PartialOrd`/`Ord` is derived and no ordering on levels appears anywhere in
the source. -/
inductive LogLevel where
  | Error
  | Warning
  | Info
  | Debug
  | Trace
  | Off
deriving DecidableEq, Repr

/-- Embeds `impl Display for LogLevel` (lib.rs 49-60). -/
def LogLevel.display : LogLevel → String
  | .Debug => "DEBUG"
  | .Info => "INFO"
  | .Warning => "WARNING"
  | .Error => "ERROR"
  | .Trace => "TRACE"
  | .Off => "OFF"

/-- Embeds `struct LogInfo` (lib.rs 191-198). -/
structure LogInfo where
  level : LogLevel
  message : String
  filepath : String
  line_number : Nat
  thread : Option String
deriving DecidableEq, Repr

/-- Embeds `struct Logger` (lib.rs 63-68).  `fileId` is the identity of the
shared `Arc<Mutex<File>>` handle; `level` and `filename` are plain fields,
so cloning a `Logger` copies them while `fileId` keeps aliasing the same
file. -/
structure Logger where
  fileId : Nat
  level : LogLevel
  filename : String
deriving DecidableEq, Repr

/-- The ambient process environment (`std::env::var`): a partial map from
variable names to values.  The source of this revision never reads it, and
the translation reflects that. -/
def Env : Type := String → Option String

/-- An environment with no variables set. -/
def emptyEnv : Env := fun _ => none

/-- Embeds the process-global state: the `INSTANCE` slot (lib.rs 16), the
`FILENAME` global (lib.rs 17), the next fresh file-handle identity, and the
byte contents behind every file-handle identity. -/
structure GState where
  slot : Option Logger
  filenameGlobal : String
  nextId : Nat
  files : Nat → String

/-- The state at process start: `INSTANCE` holds `None`, `FILENAME` holds
`"debug.log"`, no file handle has been opened, every file is empty. -/
def initState : GState :=
  { slot := none
    filenameGlobal := "debug.log"
    nextId := 0
    files := fun _ => "" }

/-- Embeds `get_file_and_filename` (lib.rs 89-126), non-test branch
(`cfg!(test)` is false in production): reads the `FILENAME` global, opens
that path with create+append semantics — a fresh `Arc<Mutex<File>>` handle,
existing contents preserved — and returns the handle with the filename.
The ambient environment is not consulted. -/
def get_file_and_filename (st : GState) : (Nat × String) × GState :=
  ((st.nextId, st.filenameGlobal), { st with nextId := st.nextId + 1 })

/-- Embeds `Logger::new` (lib.rs 128-139): `level` is hard-coded to
`LogLevel::Info` and the file and filename come from
`get_file_and_filename`.  The `env` parameter is the ambient process
environment; the source never reads it during construction. -/
def Logger.new (_env : Env) (st : GState) : Logger × GState :=
  let level := LogLevel.Info
  let p := get_file_and_filename st
  ({ fileId := p.1.1, level := level, filename := p.1.2 }, p.2)

/-- Embeds `Logger::set_level` (lib.rs 142-144): `&mut self` assignment to
the plain `level` field of this handle.  No global state is touched. -/
def Logger.set_level (l : Logger) (lvl : LogLevel) : Logger :=
  { l with level := lvl }

/-- Embeds `Logger::get_instance` (lib.rs 175-188): locks the `INSTANCE`
slot; if empty, constructs a `Logger`, stores a clone and returns the
original; otherwise returns a clone of the stored one.  (A clone has equal
fields and aliases the same file handle, so it is the same `Logger`
value.) -/
def Logger.get_instance (env : Env) (st : GState) : Logger × GState :=
  match st.slot with
  | none =>
      let p := Logger.new env st
      (p.1, { p.2 with slot := some p.1 })
  | some logger => (logger, st)

/-- Embeds `Logger::log` (lib.rs 147-173).  `ts` is the ambient wall-clock
timestamp already rendered by `now.format(...)`; `curThread` is the current
thread's name (`None` models an unnamed thread).  The body transcribes the
source: build the thread name, location and output line, then either append
the line to the supplied writer (returning immediately) or lock the shared
file and append the line to it.  Note that `self.level` is never consulted:
the source contains no admission check. -/
def Logger.log (l : Logger) (ts : String) (curThread : Option String)
    (info : LogInfo) (writer : Option String) (st : GState) :
    GState × Option String :=
  let thread := info.thread.getD (curThread.getD "unnamed")
  let location := info.filepath ++ ":" ++ toString info.line_number
  let level := info.level
  let message := info.message
  let output := "[" ++ ts ++ "] [" ++ level.display ++ "] [" ++ thread
      ++ "] [" ++ location ++ "] " ++ message ++ "\n"
  match writer with
  | some w => (st, some (w ++ output))
  | none =>
      ({ st with
          files := fun id =>
            if id = l.fileId then st.files id ++ output else st.files id },
        none)

/-- Runs `Logger::get_instance` `n` times in sequence from a given global
state, collecting the returned handles. -/
def runGet (env : Env) : GState → Nat → List Logger × GState
  | st, 0 => ([], st)
  | st, n + 1 =>
      let p := Logger.get_instance env st
      let q := runGet env p.2 n
      (p.1 :: q.1, q.2)

/-- A concrete record: the `LogInfo` of the spec's S1 scenario. -/
def mainRecord : LogInfo :=
  { level := LogLevel.Info
    message := "Hello, world!"
    filepath := "x.rs"
    line_number := 42
    thread := none }

/-- A concrete timestamp, standing for the ambient wall clock. -/
def ts0 : String := "2024-01-01 00:00:00.000 UTC"

/-- First `get_instance` call of the process. -/
def firstGet : Logger × GState := Logger.get_instance emptyEnv initState

/-- The first handle after calling `set_level(LogLevel::Off)` on it. -/
def offHandle : Logger := firstGet.1.set_level LogLevel.Off

/-- The global state and writer result after the Off-levelled handle logs
`mainRecord` to the sink. -/
def afterOffLog : GState × Option String :=
  offHandle.log ts0 (some "main") mainRecord none firstGet.2

/-- The first handle after calling `set_level(LogLevel::Error)` on it. -/
def errHandle : Logger := firstGet.1.set_level LogLevel.Error

/-- A second `get_instance` call, made after the first one returned. -/
def secondGet : Logger × GState := Logger.get_instance emptyEnv firstGet.2

/-- An environment with `WOODY_FILE=x.log` and `WOODY_LEVEL=error` set. -/
def envWoody : Env := fun k =>
  if k = "WOODY_FILE" then some "x.log"
  else if k = "WOODY_LEVEL" then some "error" else none

/-!
## The sink write machine

`Logger::log` on the sink path executes `let mut file = self.file.lock()`
followed by `file.write_all(output.as_bytes())` (lib.rs 171-172): a thread
appends the bytes of its formatted line to the shared file only while it
holds the file's mutex, and the mutex is released (the guard dropped) only
after the whole line is out.  The machine below embeds exactly this
discipline for `n` threads, each with one line to write.  The bytes of a
line are written one at a time, so indivisibility of a line is a property
to prove, not an artefact of the model.
-/

/-- Status of one thread: has not called `write_all` yet; holds the lock
with `rem` bytes of its line still unwritten; or has finished and released
the lock. -/
inductive TStatus where
  | idle
  | writing (rem : List Char)
  | done
deriving DecidableEq, Repr

/-- State of the shared sink and the `n` competing threads: the file's
byte contents, the mutex owner (`none` when free), and each thread's
status. -/
structure MState (n : Nat) where
  file : List Char
  lock : Option (Fin n)
  stat : Fin n → TStatus

/-- Initial machine state: the file holds its pre-existing bytes `base`
(append mode preserves them), the mutex is free, every thread is idle. -/
def MState.init (n : Nat) (base : List Char) : MState n :=
  { file := base, lock := none, stat := fun _ => TStatus.idle }

/-- One step of the sink write discipline of `Logger::log` (lib.rs
171-172), where `line t` is thread `t`'s formatted line:

* `acquire`: `self.file.lock()` succeeds only while no one holds the mutex;
* `put`: a thread appends the next byte of its line to the file, possible
  only while it holds the mutex (the `File` is reachable only through the
  `MutexGuard`);
* `release`: the guard is dropped — only after every byte of the thread's
  line has been written, since `write_all` returns before the guard goes
  out of scope. -/
inductive MStep {n : Nat} (line : Fin n → List Char) :
    MState n → MState n → Prop where
  | acquire (t : Fin n) (s s2 : MState n) :
      s.lock = none → s.stat t = TStatus.idle →
      s2.file = s.file → s2.lock = some t →
      (∀ u, s2.stat u = if u = t then TStatus.writing (line t) else s.stat u) →
      MStep line s s2
  | put (t : Fin n) (c : Char) (rest : List Char) (s s2 : MState n) :
      s.lock = some t → s.stat t = TStatus.writing (c :: rest) →
      s2.file = s.file ++ [c] → s2.lock = some t →
      (∀ u, s2.stat u = if u = t then TStatus.writing rest else s.stat u) →
      MStep line s s2
  | release (t : Fin n) (s s2 : MState n) :
      s.lock = some t → s.stat t = TStatus.writing [] →
      s2.file = s.file → s2.lock = none →
      (∀ u, s2.stat u = if u = t then TStatus.done else s.stat u) →
      MStep line s s2

/-- The mutual-exclusion invariant of the sink: some set of threads
(listed once each, in completion order) have written their whole lines,
which sit whole and in that order after the base bytes; if the mutex is
held, the holder's partial line sits after them and nobody else is
mid-write; if the mutex is free, no partial bytes are present at all. -/
def MInv {n : Nat} (line : Fin n → List Char) (base : List Char)
    (s : MState n) : Prop :=
  ∃ order : List (Fin n), order.Nodup ∧
    (∀ t, s.stat t = TStatus.done ↔ t ∈ order) ∧
    ((s.lock = none ∧
        s.file = base ++ (order.map line).flatten ∧
        ∀ t, s.stat t = TStatus.idle ∨ s.stat t = TStatus.done) ∨
      (∃ t w rem, s.lock = some t ∧ s.stat t = TStatus.writing rem ∧
        line t = w ++ rem ∧
        s.file = base ++ (order.map line).flatten ++ w ∧
        ∀ u, u ≠ t → (s.stat u = TStatus.idle ∨ s.stat u = TStatus.done)))

/-- The two lines of the concrete two-thread workload. -/
def wLine : Fin 2 → List Char := fun t =>
  if t = 0 then ['a', '\n'] else ['b', '\n']

/-- A two-thread machine state given pointwise. -/
def wState (f : List Char) (lk : Option (Fin 2)) (s0 s1 : TStatus) :
    MState 2 :=
  { file := f, lock := lk, stat := fun u => if u = 0 then s0 else s1 }

/-- Concrete run, state 1: thread 0 has acquired the mutex. -/
def wm1 : MState 2 :=
  wState [] (some 0) (TStatus.writing ['a', '\n']) TStatus.idle

/-- Concrete run, state 2: thread 0 has written its first byte. -/
def wm2 : MState 2 :=
  wState ['a'] (some 0) (TStatus.writing ['\n']) TStatus.idle

/-- Concrete run, state 3: thread 0 has written its whole line. -/
def wm3 : MState 2 :=
  wState ['a', '\n'] (some 0) (TStatus.writing []) TStatus.idle

/-- Concrete run, state 4: thread 0 has released the mutex. -/
def wm4 : MState 2 :=
  wState ['a', '\n'] none TStatus.done TStatus.idle

/-- Concrete run, state 5: thread 1 has acquired the mutex. -/
def wm5 : MState 2 :=
  wState ['a', '\n'] (some 1) TStatus.done (TStatus.writing ['b', '\n'])

/-- Concrete run, state 6: thread 1 has written its first byte. -/
def wm6 : MState 2 :=
  wState ['a', '\n', 'b'] (some 1) TStatus.done (TStatus.writing ['\n'])

/-- Concrete run, state 7: thread 1 has written its whole line. -/
def wm7 : MState 2 :=
  wState ['a', '\n', 'b', '\n'] (some 1) TStatus.done (TStatus.writing [])

/-- Concrete run, state 8: both threads are done, the mutex is free. -/
def wm8 : MState 2 :=
  wState ['a', '\n', 'b', '\n'] none TStatus.done TStatus.done

end Woody

namespace Woody

/-! ## Theorems -/

/-- `get_instance` on a state whose slot is already filled returns a clone
of the stored logger and leaves the state untouched (lib.rs 184-187). -/
theorem get_instance_of_slot_some (env : Env) (st : GState) (g : Logger)
    (h : st.slot = some g) : Logger.get_instance env st = (g, st) := by
  simp [Logger.get_instance, h]

/-- Iterating `get_instance` from a state whose slot is filled returns the
stored logger every time and never changes the state. -/
theorem runGet_of_slot_some (env : Env) (st : GState) (g : Logger)
    (h : st.slot = some g) :
    ∀ n, runGet env st n = (List.replicate n g, st) := by
  intro n
  induction n with
  | zero => simp [runGet]
  | succ m ih =>
      simp [runGet, get_instance_of_slot_some env st g h, ih,
        List.replicate_succ]

/-- The first `get_instance` of the process constructs the logger
`{fileId := 0, level := Info, filename := "debug.log"}` and stores it. -/
theorem get_instance_init (env : Env) :
    Logger.get_instance env initState =
      ({ fileId := 0, level := LogLevel.Info, filename := "debug.log" },
        { slot := some
            { fileId := 0, level := LogLevel.Info, filename := "debug.log" }
          filenameGlobal := "debug.log"
          nextId := 1
          files := fun _ => "" }) := rfl

/-- Claim C1: the admission rule is absent from `Logger::log`.  Evaluating
the code at the failing input: from a fresh process the handle's level is
set to `Off` (under the claim — and `set_level`'s own doc comment — every
record must now be dropped with no I/O), yet logging an `Info` record
appends its formatted line to the sink file, which was empty before the
call. -/
theorem log_writes_even_when_threshold_off :
    offHandle.level = LogLevel.Off ∧
    firstGet.2.files 0 = "" ∧
    (afterOffLog.1).files 0 =
      "[2024-01-01 00:00:00.000 UTC] [INFO] [main] [x.rs:42] Hello, world!\n" := by
  refine ⟨rfl, rfl, rfl⟩

/-- Claim C2, counterexample: after the first handle calls
`set_level(Error)`, a handle obtained from a later `get_instance` still
carries level `Info`, not `Error`; the two handles observe different
thresholds at the same moment. -/
theorem set_level_not_observed_by_other_handles :
    errHandle.level = LogLevel.Error ∧
    secondGet.1.level = LogLevel.Info ∧
    secondGet.1.level ≠ errHandle.level := by
  refine ⟨rfl, rfl, by decide⟩

/-- Claim C2 (amended): `set_level` updates only the handle it is called
on — the level field of that handle changes and its filename and file
handle are preserved — while the global slot is untouched, so a later
`get_instance` returns the stored logger with its construction-time level,
not the level set on the other handle. -/
theorem set_level_is_local_to_handle (env : Env) (lvl : LogLevel)
    (st : GState) :
    ((Logger.get_instance env st).1.set_level lvl).level = lvl ∧
    ((Logger.get_instance env st).1.set_level lvl).fileId =
      (Logger.get_instance env st).1.fileId ∧
    ((Logger.get_instance env st).1.set_level lvl).filename =
      (Logger.get_instance env st).1.filename ∧
    (Logger.get_instance env (Logger.get_instance env st).2).1 =
      (Logger.get_instance env st).1 := by
  refine ⟨rfl, rfl, rfl, ?_⟩
  cases h : st.slot with
  | none => simp [Logger.get_instance, h, Logger.new, get_file_and_filename]
  | some g => simp [Logger.get_instance, h]

/-- Claim C3, counterexample: with `WOODY_FILE=x.log` and
`WOODY_LEVEL=error` set in the ambient environment, construction still
yields filename `"debug.log"` (not `"x.log"`) and level `Info` (not
`Error`): the environment is never read. -/
theorem construction_ignores_environment :
    (Logger.new envWoody initState).1.filename = "debug.log" ∧
    (Logger.new envWoody initState).1.filename ≠ "x.log" ∧
    (Logger.new envWoody initState).1.level = LogLevel.Info ∧
    (Logger.new envWoody initState).1.level ≠ LogLevel.Error := by
  refine ⟨rfl, by decide, rfl, by decide⟩

/-- Claim C3 (amended): at construction the filename is taken from the
`FILENAME` global (initially `"debug.log"`, never written) and the level is
always `Info`, whatever the ambient environment holds. -/
theorem new_reads_global_filename_and_fixes_info (env : Env) (st : GState) :
    (Logger.new env st).1.filename = st.filenameGlobal ∧
    (Logger.new env st).1.level = LogLevel.Info ∧
    initState.filenameGlobal = "debug.log" := by
  refine ⟨rfl, rfl, rfl⟩

/-- Claim C4: the Logger is constructed at most once — across any number
of `get_instance` calls from process start, at most one file handle is ever
opened (`nextId` grows by at most one) — and every returned handle equals
the logger stored in the global slot, hence shares its file handle. -/
theorem get_instance_singleton (env : Env) (n : Nat) :
    (runGet env initState n).2.nextId ≤ 1 ∧
    ∀ h : Logger, h ∈ (runGet env initState n).1 →
      (runGet env initState n).2.slot = some h := by
  cases n with
  | zero => exact ⟨Nat.zero_le 1, by intro h hm; simp [runGet] at hm⟩
  | succ m =>
      have hrun : runGet env initState (m + 1) =
          ((Logger.get_instance env initState).1 ::
            (runGet env (Logger.get_instance env initState).2 m).1,
            (runGet env (Logger.get_instance env initState).2 m).2) := rfl
      rw [hrun, get_instance_init]
      rw [runGet_of_slot_some env _ _ rfl m]
      constructor
      · exact Nat.le_refl 1
      · intro h hm
        simp only [List.mem_cons] at hm
        rcases hm with hm | hm
        · simp [hm]
        · simp [List.eq_of_mem_replicate hm]

/-- Claim C4 witness: two `get_instance` calls from process start open at
most one file handle, and the concrete second handle returned is exactly
the logger stored in the slot. -/
theorem get_instance_singleton_witness :
    (runGet emptyEnv initState 2).2.nextId ≤ 1 ∧
    (runGet emptyEnv initState 2).2.slot =
      some { fileId := 0, level := LogLevel.Info, filename := "debug.log" } := by
  refine ⟨(get_instance_singleton emptyEnv 2).1, ?_⟩
  exact (get_instance_singleton emptyEnv 2).2
    { fileId := 0, level := LogLevel.Info, filename := "debug.log" }
    (by decide)

/-- Claim C5: for every record, the bytes `log` appends to the sink are
exactly `[<TS>] [<LEVEL>] [<THREAD>] [<FILE>:<LINE>] <MESSAGE>` followed by
a single newline, where the level field is the record severity's uppercase
label, file and line are verbatim, the message is verbatim and unescaped,
and the thread field is the record's `thread` if present, else the current
thread's name, else the literal `unnamed`. -/
theorem log_line_format (l : Logger) (ts : String) (curThread : Option String)
    (info : LogInfo) (st : GState) :
    ((l.log ts curThread info none st).1).files l.fileId =
      st.files l.fileId ++
        ("[" ++ ts ++ "] [" ++ info.level.display ++ "] ["
          ++ (match info.thread, curThread with
              | some t, _ => t
              | none, some cur => cur
              | none, none => "unnamed")
          ++ "] [" ++ info.filepath ++ ":" ++ toString info.line_number
          ++ "] " ++ info.message ++ "\n") := by
  cases hth : info.thread <;> cases hcur : curThread <;>
    simp [Logger.log, hth, hcur, String.append_assoc]

/-- Claim C7, counterexample: no value of the severity type renders as the
empty string — the claimed "always admit" sentinel with empty label does
not exist; the type's six values all have nonempty labels. -/
theorem no_severity_has_empty_label :
    LogLevel.display LogLevel.Error ≠ "" ∧
    LogLevel.display LogLevel.Warning ≠ "" ∧
    LogLevel.display LogLevel.Info ≠ "" ∧
    LogLevel.display LogLevel.Debug ≠ "" ∧
    LogLevel.display LogLevel.Trace ≠ "" ∧
    LogLevel.display LogLevel.Off ≠ "" := by
  refine ⟨by decide, by decide, by decide, by decide, by decide, by decide⟩

/-- Claim C7 (amended): every severity value has a fixed uppercase textual
label, `Off`'s label is `"OFF"`, and no value's label is the empty string;
the severity type contains no "always admit" sentinel, so the level field
of every emitted line is one of these six nonempty labels. -/
theorem severity_labels :
    (LogLevel.display LogLevel.Error = "ERROR" ∧
      LogLevel.display LogLevel.Warning = "WARNING" ∧
      LogLevel.display LogLevel.Info = "INFO" ∧
      LogLevel.display LogLevel.Debug = "DEBUG" ∧
      LogLevel.display LogLevel.Trace = "TRACE" ∧
      LogLevel.display LogLevel.Off = "OFF") ∧
    ∀ l : LogLevel, LogLevel.display l ≠ "" := by
  refine ⟨⟨rfl, rfl, rfl, rfl, rfl, rfl⟩, ?_⟩
  intro l
  cases l <;> decide

/-- Claim C8: when a writer override is supplied, the formatted line is
appended to that writer and the global state — in particular the sink's
file contents — is returned completely unchanged. -/
theorem writer_override_bypasses_sink (l : Logger) (ts : String)
    (curThread : Option String) (info : LogInfo) (w : String) (st : GState) :
    (l.log ts curThread info (some w) st).1 = st ∧
    (l.log ts curThread info (some w) st).2 =
      some (w ++
        ("[" ++ ts ++ "] [" ++ info.level.display ++ "] ["
          ++ (match info.thread, curThread with
              | some t, _ => t
              | none, some cur => cur
              | none, none => "unnamed")
          ++ "] [" ++ info.filepath ++ ":" ++ toString info.line_number
          ++ "] " ++ info.message ++ "\n")) := by
  refine ⟨rfl, ?_⟩
  cases hth : info.thread <;> cases hcur : curThread <;>
    simp [Logger.log, hth, hcur, String.append_assoc]

/-- Claim C10: `log` leaves the Logger's own state unchanged — the global
slot (which stores the logger's level, filename and file-handle identity)
is preserved, as are the `FILENAME` global and the handle counter — and
the only file whose contents can change is the one behind the handle's own
`fileId`. -/
theorem log_preserves_logger_state (l : Logger) (ts : String)
    (curThread : Option String) (info : LogInfo) (writer : Option String)
    (st : GState) :
    (l.log ts curThread info writer st).1.slot = st.slot ∧
    (l.log ts curThread info writer st).1.filenameGlobal = st.filenameGlobal ∧
    (l.log ts curThread info writer st).1.nextId = st.nextId ∧
    ∀ id : Nat, id ≠ l.fileId →
      (l.log ts curThread info writer st).1.files id = st.files id := by
  cases writer with
  | some w => exact ⟨rfl, rfl, rfl, fun id _ => rfl⟩
  | none =>
      refine ⟨rfl, rfl, rfl, ?_⟩
      intro id hid
      simp [Logger.log, hid]

/-- Claim C10 witness: logging `mainRecord` through the first handle
preserves the slot, the `FILENAME` global, the handle counter, and the
contents of file 5 (a file other than the handle's own). -/
theorem log_preserves_logger_state_witness :
    (firstGet.1.log ts0 none mainRecord none firstGet.2).1.slot =
      firstGet.2.slot ∧
    (firstGet.1.log ts0 none mainRecord none firstGet.2).1.files 5 =
      firstGet.2.files 5 := by
  refine ⟨(log_preserves_logger_state firstGet.1 ts0 none mainRecord none
    firstGet.2).1, ?_⟩
  exact (log_preserves_logger_state firstGet.1 ts0 none mainRecord none
    firstGet.2).2.2.2 5 (by decide)

/-- The mutual-exclusion invariant holds at the initial machine state. -/
theorem MInv_init {n : Nat} (line : Fin n → List Char) (base : List Char) :
    MInv line base (MState.init n base) := by
  refine ⟨[], List.nodup_nil, ?_, Or.inl ⟨rfl, by simp [MState.init], ?_⟩⟩
  · intro t
    simp [MState.init]
  · intro t
    exact Or.inl rfl

/-- One step of the machine preserves the mutual-exclusion invariant. -/
theorem MInv_step {n : Nat} {line : Fin n → List Char} {base : List Char}
    {s s2 : MState n} (hs : MInv line base s) (hstep : MStep line s s2) :
    MInv line base s2 := by
  obtain ⟨order, hnd, hdone, hcase⟩ := hs
  cases hstep with
  | acquire t s s2 hlock hidle hfile hlock2 hstat2 =>
      rcases hcase with ⟨hln, hf, hall⟩ | ⟨t0, w, rem, hl0, hrest⟩
      · have htmem : t ∉ order := by
          intro hm
          have h := (hdone t).mpr hm
          rw [hidle] at h
          exact TStatus.noConfusion h
        refine ⟨order, hnd, ?_, Or.inr ⟨t, [], line t, hlock2, ?_, ?_, ?_, ?_⟩⟩
        · intro u
          rw [hstat2 u]
          by_cases hu : u = t
          · subst hu
            simp [htmem]
          · simp only [if_neg hu]
            exact hdone u
        · rw [hstat2 t]
          simp
        · simp
        · rw [hfile, hf, List.append_nil]
        · intro u hu
          rw [hstat2 u, if_neg hu]
          exact hall u
      · rw [hlock] at hl0
        exact Option.noConfusion hl0
  | put t c rest s s2 hlock hwr hfile hlock2 hstat2 =>
      rcases hcase with ⟨hln, hf, hall⟩ |
        ⟨t0, w, rem, hl0, hst0, hlw, hf, hoth⟩
      · rw [hlock] at hln
        exact Option.noConfusion hln
      · have ht0 : t0 = t := by
          rw [hlock] at hl0
          exact (Option.some_injective _ hl0).symm
        subst ht0
        have hrem : rem = c :: rest := by
          have h := hst0.symm.trans hwr
          injection h
        subst hrem
        have htmem : t0 ∉ order := by
          intro hm
          have h := (hdone t0).mpr hm
          rw [hst0] at h
          exact TStatus.noConfusion h
        refine ⟨order, hnd, ?_,
          Or.inr ⟨t0, w ++ [c], rest, hlock2, ?_, ?_, ?_, ?_⟩⟩
        · intro u
          rw [hstat2 u]
          by_cases hu : u = t0
          · subst hu
            simp [htmem]
          · simp only [if_neg hu]
            exact hdone u
        · rw [hstat2 t0]
          simp
        · rw [hlw]
          simp
        · rw [hfile, hf]
          simp [List.append_assoc]
        · intro u hu
          rw [hstat2 u, if_neg hu]
          exact hoth u hu
  | release t s s2 hlock hwr hfile hlock2 hstat2 =>
      rcases hcase with ⟨hln, hf, hall⟩ |
        ⟨t0, w, rem, hl0, hst0, hlw, hf, hoth⟩
      · rw [hlock] at hln
        exact Option.noConfusion hln
      · have ht0 : t0 = t := by
          rw [hlock] at hl0
          exact (Option.some_injective _ hl0).symm
        subst ht0
        have hrem : rem = [] := by
          have h := hst0.symm.trans hwr
          injection h
        subst hrem
        have hlw2 : line t0 = w := by
          rw [hlw, List.append_nil]
        have htmem : t0 ∉ order := by
          intro hm
          have h := (hdone t0).mpr hm
          rw [hst0] at h
          exact TStatus.noConfusion h
        refine ⟨order ++ [t0], ?_, ?_, Or.inl ⟨hlock2, ?_, ?_⟩⟩
        · simp [List.nodup_append, hnd, htmem]
        · intro u
          rw [hstat2 u]
          by_cases hu : u = t0
          · subst hu
            simp
          · simp only [if_neg hu, List.mem_append, List.mem_singleton, hu,
              or_false]
            exact hdone u
        · rw [hfile, hf]
          simp [List.map_append, List.flatten_append, hlw2, List.append_assoc]
        · intro u
          rw [hstat2 u]
          by_cases hu : u = t0
          · subst hu
            simp
          · simp only [if_neg hu]
            exact hoth u hu

/-- Every state the machine can reach from the initial state satisfies the
mutual-exclusion invariant. -/
theorem MInv_reach {n : Nat} {line : Fin n → List Char} {base : List Char}
    {s : MState n}
    (h : Relation.ReflTransGen (MStep line) (MState.init n base) s) :
    MInv line base s := by
  induction h with
  | refl => exact MInv_init line base
  | tail _ hstep ih => exact MInv_step ih hstep

/-- Claim C9: under any interleaving of the sink write discipline — any
number of threads, each appending the bytes of its formatted line to the
shared file only while holding the file's mutex — every terminal state's
file consists of the pre-existing bytes followed by each thread's complete
line as one contiguous block, each thread exactly once, in some order: no
two records ever interleave within a line. -/
theorem sink_writes_are_line_atomic {n : Nat} (line : Fin n → List Char)
    (base : List Char) (s : MState n)
    (hreach : Relation.ReflTransGen (MStep line) (MState.init n base) s)
    (hdone : ∀ t, s.stat t = TStatus.done) :
    ∃ order : List (Fin n), order.Nodup ∧ (∀ t, t ∈ order) ∧
      s.file = base ++ (order.map line).flatten := by
  obtain ⟨order, hnd, hiff, hcase⟩ := MInv_reach hreach
  rcases hcase with ⟨_, hf, _⟩ | ⟨t, w, rem, _, hst, _, _, _⟩
  · exact ⟨order, hnd, fun t => (hiff t).mp (hdone t), hf⟩
  · rw [hdone t] at hst
    exact TStatus.noConfusion hst

/-- Claim C9 witness: a concrete two-thread run — thread 0 writes
`"a\n"`, thread 1 writes `"b\n"`, byte by byte under the mutex — reaches
a terminal state whose file is the two complete lines in order. -/
theorem sink_writes_are_line_atomic_witness :
    ∃ order : List (Fin 2), order.Nodup ∧ (∀ t, t ∈ order) ∧
      wm8.file = [] ++ (order.map wLine).flatten := by
  have h01 : MStep wLine (MState.init 2 []) wm1 :=
    MStep.acquire 0 _ _ rfl rfl rfl rfl (by decide)
  have h12 : MStep wLine wm1 wm2 :=
    MStep.put 0 'a' ['\n'] _ _ rfl rfl rfl rfl (by decide)
  have h23 : MStep wLine wm2 wm3 :=
    MStep.put 0 '\n' [] _ _ rfl rfl rfl rfl (by decide)
  have h34 : MStep wLine wm3 wm4 :=
    MStep.release 0 _ _ rfl rfl rfl rfl (by decide)
  have h45 : MStep wLine wm4 wm5 :=
    MStep.acquire 1 _ _ rfl rfl rfl rfl (by decide)
  have h56 : MStep wLine wm5 wm6 :=
    MStep.put 1 'b' ['\n'] _ _ rfl rfl rfl rfl (by decide)
  have h67 : MStep wLine wm6 wm7 :=
    MStep.put 1 '\n' [] _ _ rfl rfl rfl rfl (by decide)
  have h78 : MStep wLine wm7 wm8 :=
    MStep.release 1 _ _ rfl rfl rfl rfl (by decide)
  have hreach : Relation.ReflTransGen (MStep wLine) (MState.init 2 []) wm8 :=
    Relation.ReflTransGen.head h01 (Relation.ReflTransGen.head h12
      (Relation.ReflTransGen.head h23 (Relation.ReflTransGen.head h34
        (Relation.ReflTransGen.head h45 (Relation.ReflTransGen.head h56
          (Relation.ReflTransGen.head h67
            (Relation.ReflTransGen.single h78)))))))
  exact sink_writes_are_line_atomic wLine [] wm8 hreach (by decide)

end Woody
